import Mathlib

/-!
Shallow embedding of the reactive-state core of the vex-js repository.

Source files embedded:
* `src/vexd-state.ts` — classes `VexdState<T>` (a boxed value with a
  subscriber list) and `VexdStateList<T>` (array-valued specialisation).
* `src/vexd-hooks.ts` — `effectStore` (a disposer registry) and
  `createInterval` / `createTimer` (managed platform-timer handles).

Modelling conventions:
* A JavaScript function reference (a subscriber callback or a disposer) is
  identified only by reference equality; we model each reference as a `Nat`
  id.  `Array.prototype.indexOf` followed by `splice(index, 1)` is the
  removal of the first occurrence of that id (`removeFirst` below).
* Calls made to callbacks are observable side effects; the embedding records
  them in an append-only `events` (resp. `callLog`) field, in invocation
  order, and counts each execution of the notification `forEach` loop in a
  `passes` field.  These ghost fields record what the code does; they never
  influence control flow.
* `VexdState.setState` takes `T | ((old: T) => T)` and dispatches on
  `typeof newState === "function"`.  For a value type `T` that is not itself
  a function type the runtime tag coincides with a static tag, so the
  argument is modelled as the tagged union `CallbackOrValue`.  The
  function-typed-`T` corner case is modelled separately on an untyped value
  universe (`JSVal` below).
-/

namespace VexJS

/-- Removal of the first occurrence of `f`, the semantics of
`const index = xs.indexOf(f); if (index !== -1) xs.splice(index, 1);`. -/
def removeFirst : List Nat → Nat → List Nat
  | [], _ => []
  | x :: xs, f => if x = f then xs else x :: removeFirst xs f

/-- State of a `VexdState<T>` instance (src/vexd-state.ts, class `VexdState`):
`value` and `subscribers` are the two private fields; `events` and `passes`
are ghost observables recording subscriber invocations `(callback id, argument)`
in order, and the number of notification loops executed. -/
structure VexdState (T : Type) where
  value : T
  subscribers : List Nat
  events : List (Nat × T)
  passes : Nat

/-- The tagged image of `CallbackOrValue<T> = T | ((oldState: T) => T)` for a
non-function value type `T`. -/
inductive CallbackOrValue (T : Type) where
  | value (v : T)
  | updater (f : T → T)

/-- The value `setState` computes before the equality test: the updater is
applied to `previousValue`, a literal replaces it. -/
def nextVal {T : Type} (s : VexdState T) (n : CallbackOrValue T) : T :=
  match n with
  | .value v => v
  | .updater f => f s.value

/-- `VexdState.setState` (src/vexd-state.ts lines 21-33): assign the computed
value, then, when `this.value !== previousValue`, run
`this.subscribers.forEach((subscriber) => subscriber(this.value))` — one
notification pass appending one event per registered subscriber, in
registration order. -/
def VexdState.setState {T : Type} [DecidableEq T] (s : VexdState T)
    (n : CallbackOrValue T) : VexdState T :=
  if nextVal s n ≠ s.value then
    ⟨nextVal s n, s.subscribers,
      s.events ++ s.subscribers.map (fun f => (f, nextVal s n)), s.passes + 1⟩
  else
    ⟨nextVal s n, s.subscribers, s.events, s.passes⟩

/-- `VexdState.sideEffect` (src/vexd-state.ts lines 41-53): when `triggerNow`
is true, call `fn(this.value)` first; then push `fn` onto `subscribers`. -/
def VexdState.sideEffect {T : Type} (s : VexdState T) (fn : Nat)
    (triggerNow : Bool) : VexdState T :=
  if triggerNow then
    ⟨s.value, s.subscribers ++ [fn], s.events ++ [(fn, s.value)], s.passes⟩
  else
    ⟨s.value, s.subscribers ++ [fn], s.events, s.passes⟩

/-- One call of the closure returned by `sideEffect`:
`const index = this.subscribers.indexOf(fn); if (index !== -1)
this.subscribers.splice(index, 1);`. -/
def VexdState.unsubscribe {T : Type} (s : VexdState T) (fn : Nat) : VexdState T :=
  ⟨s.value, removeFirst s.subscribers fn, s.events, s.passes⟩

/-- `VexdState.clear` (src/vexd-state.ts lines 58-60): `this.subscribers = []`. -/
def VexdState.clear {T : Type} (s : VexdState T) : VexdState T :=
  ⟨s.value, [], s.events, s.passes⟩

/-- Fold a list of plain-value `setState` calls over a state. -/
def runSets {T : Type} [DecidableEq T] (s : VexdState T) (vs : List T) :
    VexdState T :=
  vs.foldl (fun st v => st.setState (CallbackOrValue.value v)) s

/-- State of one `effectStore()` closure (src/vexd-hooks.ts lines 74-92):
`effects` is the captured array of disposer references (each a `Nat` id, and
a function reference is always truthy, so the `if (disposeFn)` guard in
`dispose` always passes); `callLog` is a ghost log of disposer invocations in
order. -/
structure EffectRegistry where
  effects : List Nat
  callLog : List Nat

/-- `addEffect` (src/vexd-hooks.ts lines 77-83): `effects.push(effect)`. -/
def EffectRegistry.addEffect (r : EffectRegistry) (e : Nat) : EffectRegistry :=
  ⟨r.effects ++ [e], r.callLog⟩

/-- The closure returned by `addEffect`: remove the first occurrence of the
registered disposer from `effects`. -/
def EffectRegistry.removeEffect (r : EffectRegistry) (e : Nat) : EffectRegistry :=
  ⟨removeFirst r.effects e, r.callLog⟩

/-- `dispose` (src/vexd-hooks.ts lines 85-89):
`effects.forEach((disposeFn) => { if (disposeFn) disposeFn(); });` —
every current disposer is invoked in registration order; the `effects`
array is left untouched. -/
def EffectRegistry.dispose (r : EffectRegistry) : EffectRegistry :=
  ⟨r.effects, r.callLog ++ r.effects⟩

/-- State of one `createInterval` / `createTimer` closure together with the
platform timer table (src/vexd-hooks.ts lines 15-63; the two functions differ
only in which platform primitive they call, `setInterval`/`setTimeout` versus
`clearInterval`/`clearTimeout`, and are handle-for-handle identical, so one
embedding covers both).  `intervalId` is the captured
`intervalId`/`timeoutId` variable; `active` is the platform's table of live
timer handles; `nextId` is the platform's next fresh handle.  Platform handles
are positive integers, so the truthiness tests `if (intervalId)` and
`if (!intervalId)` coincide with the `null` test. -/
structure TimerState where
  intervalId : Option Nat
  nextId : Nat
  active : List Nat

/-- A fresh handle before any `start` call: `let intervalId = null`, no live
platform timer, platform handles start at 1. -/
def initTimer : TimerState := ⟨none, 1, []⟩

/-- `stop` (src/vexd-hooks.ts lines 23-27): `if (!intervalId) return;
clearInterval(intervalId); intervalId = null;` — `clearInterval` deletes the
handle from the platform table. -/
def TimerState.stop (s : TimerState) : TimerState :=
  match s.intervalId with
  | none => s
  | some i => ⟨none, s.nextId, s.active.erase i⟩

/-- `start` (src/vexd-hooks.ts lines 18-21): `if (intervalId) stop();
intervalId = setInterval(timerFn, ms);` — `setInterval` registers a fresh
platform handle and returns it. -/
def TimerState.start (s : TimerState) : TimerState :=
  match (if s.intervalId.isSome then s.stop else s) with
  | ⟨_, nid, act⟩ => ⟨some nid, nid + 1, act ++ [nid]⟩

/-- `reset` (src/vexd-hooks.ts lines 29-32): `stop(); start();`. -/
def TimerState.reset (s : TimerState) : TimerState := s.stop.start

/-- The three public operations of a `VexTimedHook`. -/
inductive TimerOp where
  | start
  | stop
  | reset

/-- Run a sequence of `start`/`stop`/`reset` calls from the idle state. -/
def runTimer (ops : List TimerOp) : TimerState :=
  ops.foldl
    (fun s op =>
      match op with
      | TimerOp.start => s.start
      | TimerOp.stop => s.stop
      | TimerOp.reset => s.reset)
    initTimer

/-- Invariant of a timer handle: the platform table holds exactly the handle
recorded in `intervalId` (if any), and every live handle is positive and
older than the platform's fresh counter. -/
def TimerInv (s : TimerState) : Prop :=
  s.active = s.intervalId.toList ∧ 1 ≤ s.nextId ∧
    ∀ i ∈ s.active, 1 ≤ i ∧ i < s.nextId

/-- State of a `VexdStateList<T>` instance (src/vexd-state.ts, class
`VexdStateList extends VexdState<T[]>`).  JavaScript compares arrays by
reference, so the inherited `this.value !== previousValue` test on the array
value is reference inequality; to make it observable the embedding carries an
explicit `heap` of every array allocated so far, and the stored value `cur`
is an index (reference) into it.  `subscribers`, `events` and `passes` are as
in `VexdState`, with events recording the notified array reference. -/
structure VexdStateList (T : Type) where
  heap : List (List T)
  cur : Nat
  subscribers : List Nat
  events : List (Nat × Nat)
  passes : Nat

/-- The array currently stored in the boxed list (dereference `cur`). -/
def storedList {T : Type} (s : VexdStateList T) : List T :=
  s.heap.getD s.cur []

/-- The inherited `VexdState.setState` at array type, called with an updater
(the only way `add`/`remove`/`map` call it): the updater builds a fresh array
from the previous one (`[...old, x]`, `old.filter(...)`, `old.map(...)` all
allocate), so the new reference is the next free heap slot; then
`this.value = newArray` and the `!==` comparison is on references. -/
def VexdStateList.setStateFn {T : Type} (s : VexdStateList T)
    (f : List T → List T) : VexdStateList T :=
  if s.heap.length ≠ s.cur then
    ⟨s.heap ++ [f (storedList s)], s.heap.length, s.subscribers,
      s.events ++ s.subscribers.map (fun g => (g, s.heap.length)), s.passes + 1⟩
  else
    ⟨s.heap ++ [f (storedList s)], s.heap.length, s.subscribers, s.events,
      s.passes⟩

/-- `VexdStateList.add` (src/vexd-state.ts lines 71-73):
`this.setState((oldState) => [...oldState, item])`. -/
def VexdStateList.add {T : Type} (s : VexdStateList T) (item : T) :
    VexdStateList T :=
  s.setStateFn (fun oldState => oldState ++ [item])

/-- `VexdStateList.remove` (src/vexd-state.ts lines 79-81):
`this.setState((oldState) => oldState.filter((item) => !predicate(item)))`. -/
def VexdStateList.remove {T : Type} (s : VexdStateList T)
    (predicate : T → Bool) : VexdStateList T :=
  s.setStateFn (fun oldState => oldState.filter (fun item => !(predicate item)))

/-- `VexdStateList.map` (src/vexd-state.ts lines 87-89):
`this.setState((oldState) => oldState.map(callback))`. -/
def VexdStateList.map {T : Type} (s : VexdStateList T) (callback : T → T) :
    VexdStateList T :=
  s.setStateFn (fun oldState => oldState.map callback)

mutual
/-- An untyped JavaScript runtime value, for the case the static tag cannot
resolve: either a non-function value or a function closure. -/
inductive JSVal where
  | num : Int → JSVal
  | str : String → JSVal
  | fn : FnCode → JSVal

/-- First-order closures, enough to represent updaters over function-typed
state: a constant function, the identity, and composition. -/
inductive FnCode where
  | constC : JSVal → FnCode
  | idC : FnCode
  | compC : FnCode → FnCode → FnCode
end

/-- Application of a closure to a runtime value. -/
def evalFn : FnCode → JSVal → JSVal
  | .constC v, _ => v
  | .idC, v => v
  | .compC g f, v => evalFn g (evalFn f v)

/-- The runtime test `typeof v === "function"`. -/
def JSVal.isFunction : JSVal → Bool
  | .fn _ => true
  | _ => false

/-- The value computation of `VexdState.setState` (src/vexd-state.ts lines
24-28) on untyped runtime values, with a ghost flag recording which branch
ran (`true` = the `typeof newState === "function"` updater branch):
`if (typeof newState === "function") this.value = newState(previousValue);
else this.value = newState;`. -/
def setStateValue : JSVal → JSVal → JSVal × Bool
  | previousValue, JSVal.fn c => (evalFn c previousValue, true)
  | _, v => (v, false)

/-! Helper lemmas about first-occurrence removal. -/

theorem removeFirst_not_mem {l : List Nat} {f : Nat} (h : f ∉ l) :
    removeFirst l f = l := by
  induction l with
  | nil => rfl
  | cons x xs ih =>
    have hx : x ≠ f := by
      rintro rfl
      exact h (List.mem_cons_self x xs)
    have hxs : f ∉ xs := fun hm => h (List.mem_cons_of_mem x hm)
    simp [removeFirst, hx, ih hxs]

theorem removeFirst_count_self (l : List Nat) (f : Nat) :
    (removeFirst l f).count f = l.count f - 1 := by
  induction l with
  | nil => rfl
  | cons x xs ih =>
    by_cases hx : x = f
    · subst hx
      simp [removeFirst]
    · simp [removeFirst, hx, List.count_cons, ih]

theorem removeFirst_count_ne (l : List Nat) {f g : Nat} (hg : g ≠ f) :
    (removeFirst l f).count g = l.count g := by
  induction l with
  | nil => rfl
  | cons x xs ih =>
    by_cases hx : x = f
    · subst hx
      simp [removeFirst, List.count_cons, hg]
    · simp [removeFirst, hx, List.count_cons, ih]

theorem removeFirst_idem {l : List Nat} {f : Nat} (h : l.count f ≤ 1) :
    removeFirst (removeFirst l f) f = removeFirst l f := by
  induction l with
  | nil => rfl
  | cons x xs ih =>
    by_cases hx : x = f
    · subst hx
      have hc : xs.count x = 0 := by
        have := h
        simp [List.count_cons] at this
        omega
      have hm : x ∉ xs := by
        simpa [List.count_eq_zero] using hc
      simp [removeFirst, removeFirst_not_mem hm]
    · have hxs : xs.count f ≤ 1 := by
        have := h
        simp [List.count_cons] at this
        omega
      simp [removeFirst, hx, ih hxs]

/-! Helper lemmas about `setState` and `runSets`. -/

theorem setState_value {T : Type} [DecidableEq T] (s : VexdState T)
    (n : CallbackOrValue T) : (s.setState n).value = nextVal s n := by
  dsimp [VexdState.setState]
  split <;> rfl

theorem setState_subscribers {T : Type} [DecidableEq T] (s : VexdState T)
    (n : CallbackOrValue T) : (s.setState n).subscribers = s.subscribers := by
  dsimp [VexdState.setState]
  split <;> rfl

theorem runSets_cons {T : Type} [DecidableEq T] (s : VexdState T) (v : T)
    (vs : List T) :
    runSets s (v :: vs) = runSets (s.setState (CallbackOrValue.value v)) vs :=
  rfl

theorem runSets_passes_of_chain {T : Type} [DecidableEq T] :
    ∀ (vs : List T) (s : VexdState T),
      List.Chain' (fun a b => a ≠ b) (s.value :: vs) →
      (runSets s vs).passes = s.passes + vs.length := by
  intro vs
  induction vs with
  | nil =>
    intro s _
    simp [runSets]
  | cons v vs ih =>
    intro s h
    rw [List.chain'_cons] at h
    obtain ⟨hne, h2⟩ := h
    have hcond : nextVal s (CallbackOrValue.value v) ≠ s.value := Ne.symm hne
    have hval : (s.setState (CallbackOrValue.value v)).value = v :=
      setState_value s (CallbackOrValue.value v)
    have hpass : (s.setState (CallbackOrValue.value v)).passes = s.passes + 1 := by
      dsimp [VexdState.setState]
      rw [if_pos hcond]
    rw [runSets_cons, ih _ (by rw [hval]; exact h2), hpass]
    simp
    omega

/-! Helper lemmas about array references in `VexdStateList`. -/

theorem getD_append_self {α : Type} (l : List α) (a d : α) :
    (l ++ [a]).getD l.length d = a := by
  induction l with
  | nil => rfl
  | cons x xs ih => simp [ih]

theorem getD_append_lt {α : Type} (l l2 : List α) (n : Nat) (d : α)
    (h : n < l.length) : (l ++ l2).getD n d = l.getD n d := by
  induction l generalizing n with
  | nil => simp at h
  | cons x xs ih =>
    cases n with
    | zero => rfl
    | succ m =>
      have hm : m < xs.length := by simpa using h
      simpa using ih m hm

/-- What one updater call of the inherited `setState` does on a boxed list
whose current reference is live in the heap: the stored array becomes the
updater's result, held at a fresh reference distinct from the previous one,
so exactly one notification pass runs; the array at the old reference is
untouched and the subscriber list is unchanged. -/
theorem setStateFn_spec {T : Type} (s : VexdStateList T) (f : List T → List T)
    (h : s.cur < s.heap.length) :
    storedList (s.setStateFn f) = f (storedList s)
    ∧ (s.setStateFn f).cur ≠ s.cur
    ∧ (s.setStateFn f).passes = s.passes + 1
    ∧ (s.setStateFn f).heap.getD s.cur [] = s.heap.getD s.cur []
    ∧ (s.setStateFn f).subscribers = s.subscribers := by
  have hne : s.heap.length ≠ s.cur := ne_of_gt h
  have hunfold : s.setStateFn f =
      ⟨s.heap ++ [f (storedList s)], s.heap.length, s.subscribers,
        s.events ++ s.subscribers.map (fun g => (g, s.heap.length)),
        s.passes + 1⟩ := by
    simp only [VexdStateList.setStateFn]
    rw [if_pos hne]
  refine ⟨?_, ?_, ?_, ?_, ?_⟩
  · rw [hunfold]
    show (s.heap ++ [f (storedList s)]).getD s.heap.length [] = f (storedList s)
    exact getD_append_self _ _ _
  · rw [hunfold]
    exact hne
  · rw [hunfold]
  · rw [hunfold]
    show (s.heap ++ [f (storedList s)]).getD s.cur [] = s.heap.getD s.cur []
    exact getD_append_lt _ _ _ _ h
  · rw [hunfold]

/-! Helper lemmas about timer handles. -/

theorem stop_none_eq (nid : Nat) (act : List Nat) :
    (TimerState.mk none nid act).stop = ⟨none, nid, act⟩ := rfl

theorem stop_some_eq (i nid : Nat) (act : List Nat) :
    (TimerState.mk (some i) nid act).stop = ⟨none, nid, act.erase i⟩ := rfl

theorem start_none_eq (nid : Nat) (act : List Nat) :
    (TimerState.mk none nid act).start = ⟨some nid, nid + 1, act ++ [nid]⟩ := rfl

theorem start_some_eq (i nid : Nat) (act : List Nat) :
    (TimerState.mk (some i) nid act).start
      = ⟨some nid, nid + 1, act.erase i ++ [nid]⟩ := rfl

theorem timerInv_mk {oid : Option Nat} {nid : Nat} {act : List Nat}
    (h1 : act = oid.toList) (h2 : 1 ≤ nid)
    (h3 : ∀ i ∈ act, 1 ≤ i ∧ i < nid) : TimerInv ⟨oid, nid, act⟩ :=
  ⟨h1, h2, h3⟩

theorem timer_stop_inv : ∀ {s : TimerState}, TimerInv s → TimerInv s.stop := by
  rintro ⟨oid, nid, act⟩ h
  have h1 : act = oid.toList := h.1
  have h2 : 1 ≤ nid := h.2.1
  cases oid with
  | none => exact h
  | some j =>
    have ha : act = [j] := by simpa [Option.toList] using h1
    subst ha
    rw [stop_some_eq]
    have he : ([j].erase j : List Nat) = [] := by simp
    rw [he]
    exact timerInv_mk rfl h2 (by intro i hi; simp at hi)

theorem timer_start_inv : ∀ {s : TimerState}, TimerInv s → TimerInv s.start := by
  rintro ⟨oid, nid, act⟩ h
  have h1 : act = oid.toList := h.1
  have h2 : 1 ≤ nid := h.2.1
  cases oid with
  | none =>
    have ha : act = [] := by simpa [Option.toList] using h1
    subst ha
    rw [start_none_eq]
    refine timerInv_mk rfl (by omega) ?_
    intro i hi
    simp at hi
    subst hi
    exact ⟨h2, by omega⟩
  | some j =>
    have ha : act = [j] := by simpa [Option.toList] using h1
    subst ha
    rw [start_some_eq]
    have he : ([j].erase j : List Nat) = [] := by simp
    rw [he]
    refine timerInv_mk rfl (by omega) ?_
    intro i hi
    simp at hi
    subst hi
    exact ⟨h2, by omega⟩

theorem initTimer_inv : TimerInv initTimer :=
  ⟨rfl, Nat.le_refl 1, by intro i hi; simp [initTimer] at hi⟩

theorem runTimer_inv (ops : List TimerOp) : TimerInv (runTimer ops) := by
  have general : ∀ (l : List TimerOp) (s : TimerState), TimerInv s →
      TimerInv (l.foldl
        (fun s op =>
          match op with
          | TimerOp.start => s.start
          | TimerOp.stop => s.stop
          | TimerOp.reset => s.reset)
        s) := by
    intro l
    induction l with
    | nil => intro s h; exact h
    | cons op rest ih =>
      intro s h
      refine ih _ ?_
      cases op
      · exact timer_start_inv h
      · exact timer_stop_inv h
      · exact timer_start_inv (timer_stop_inv h)
  exact general ops initTimer initTimer_inv

theorem start_isSome (s : TimerState) : s.start.intervalId.isSome = true := by
  obtain ⟨oid, nid, act⟩ := s
  cases oid <;> rfl

theorem inv_active_len {s : TimerState} (h : TimerInv s)
    (h2 : s.intervalId.isSome = true) : s.active.length = 1 := by
  rw [h.1]
  cases hx : s.intervalId with
  | none => rw [hx] at h2; simp at h2
  | some j => simp

theorem start_cancels_previous {s : TimerState} (h : TimerInv s) {i : Nat}
    (hi : s.intervalId = some i) : i ∉ s.start.active := by
  obtain ⟨oid, nid, act⟩ := s
  have h1 : act = oid.toList := h.1
  have h3 : ∀ x ∈ act, 1 ≤ x ∧ x < nid := h.2.2
  have hio : oid = some i := hi
  subst hio
  have ha : act = [i] := by simpa [Option.toList] using h1
  subst ha
  have hb := h3 i (by simp)
  rw [start_some_eq]
  show i ∉ ([i].erase i ++ [nid])
  simp
  omega

/-- Claim C1 counterexample: on a registry holding one registered disposer
(id 5), `dispose` leaves the registry non-empty, and an immediately
following second `dispose` invokes the disposer again (the call log grows),
contradicting "the registry holds zero effects, so an immediately following
second disposeAll() call invokes no disposers". -/
theorem dispose_does_not_drain :
    ((EffectRegistry.mk [] []).addEffect 5).dispose.effects ≠ []
    ∧ ((EffectRegistry.mk [] []).addEffect 5).dispose.dispose.callLog
        ≠ ((EffectRegistry.mk [] []).addEffect 5).dispose.callLog := by
  decide

/-- Claim C1 (amended): `dispose` invokes every disposer that was registered
and not unregistered, exactly once per call, in registration order (the call
log is extended by exactly the current effects list), but it does not empty
the registry, so a second `dispose` invokes all of them again. -/
theorem dispose_invokes_in_order_not_drained :
    (∀ r : EffectRegistry,
        r.dispose.callLog = r.callLog ++ r.effects
        ∧ r.dispose.effects = r.effects
        ∧ r.dispose.dispose.callLog = r.callLog ++ r.effects ++ r.effects)
    ∧ (∀ (r : EffectRegistry) (e : Nat),
        (r.addEffect e).effects = r.effects ++ [e]
        ∧ (r.removeEffect e).effects = removeFirst r.effects e) :=
  ⟨fun r => ⟨rfl, rfl, by simp [EffectRegistry.dispose]⟩,
   fun r e => ⟨rfl, rfl⟩⟩

/-- Claim C2 counterexample: with the same callback reference (id 7)
registered twice and no other subscribers, the first call of the
unsubscribe closure removes one occurrence, but a second call of the same
closure removes the other occurrence as well — it is not a no-op. -/
theorem unsubscribe_twice_removes_two :
    (((VexdState.mk (0 : Int) [7, 7] [] 0).unsubscribe 7).unsubscribe 7).subscribers
      ≠ ((VexdState.mk (0 : Int) [7, 7] [] 0).unsubscribe 7).subscribers := by
  decide

/-- Claim C2 (amended): each call of the unsubscribe closure removes the
first occurrence of the registered callback reference from `subscribers`
— so one registration of it and nothing else, leaving value and the
invocation log untouched — and further calls are no-ops exactly when the
callback is no longer present; in particular when the callback was
registered at most once, calling the closure twice equals calling it once.
When it was registered several times, each further call removes one more
occurrence. -/
theorem unsubscribe_first_occurrence_amended {T : Type} :
    (∀ (s : VexdState T) (f : Nat),
        (s.unsubscribe f).subscribers = removeFirst s.subscribers f
        ∧ (s.unsubscribe f).subscribers.count f = s.subscribers.count f - 1
        ∧ (∀ g, g ≠ f →
            (s.unsubscribe f).subscribers.count g = s.subscribers.count g)
        ∧ (s.unsubscribe f).value = s.value
        ∧ (s.unsubscribe f).events = s.events)
    ∧ (∀ (s : VexdState T) (f : Nat), f ∉ s.subscribers →
        s.unsubscribe f = s)
    ∧ (∀ (s : VexdState T) (f : Nat), s.subscribers.count f ≤ 1 →
        (s.unsubscribe f).unsubscribe f = s.unsubscribe f) := by
  refine ⟨fun s f => ⟨rfl, removeFirst_count_self _ _,
    fun g hg => removeFirst_count_ne _ hg, rfl, rfl⟩,
    fun s f h => ?_, fun s f h => ?_⟩
  · simp [VexdState.unsubscribe, removeFirst_not_mem h]
  · simp [VexdState.unsubscribe, removeFirst_idem h]

/-- Claim C2 witness: concrete instances of the amended theorem, with the
hypotheses discharged at a singleton and at an absent callback. -/
theorem unsubscribe_first_occurrence_amended_witness :
    ((VexdState.mk (0 : Int) [7] [] 0).unsubscribe 7).unsubscribe 7
      = (VexdState.mk (0 : Int) [7] [] 0).unsubscribe 7
    ∧ (VexdState.mk (0 : Int) [7] [] 0).unsubscribe 9
      = VexdState.mk (0 : Int) [7] [] 0
    ∧ ((VexdState.mk (0 : Int) [7] [] 0).unsubscribe 7).subscribers.count 9
      = (VexdState.mk (0 : Int) [7] [] 0).subscribers.count 9 :=
  ⟨unsubscribe_first_occurrence_amended.2.2
      (VexdState.mk (0 : Int) [7] [] 0) 7 (by decide),
   unsubscribe_first_occurrence_amended.2.1
      (VexdState.mk (0 : Int) [7] [] 0) 9 (by decide),
   (unsubscribe_first_occurrence_amended.1
      (VexdState.mk (0 : Int) [7] [] 0) 7).2.2.1 9 (by decide)⟩

/-- Claim C5: `sideEffect` with `triggerNow = true` invokes the callback
exactly once, synchronously, with the current value (one event is appended
before it returns), appends the callback to the subscriber list and changes
nothing else; with `triggerNow` false (the default) no invocation happens;
and after an immediate-trigger subscription every event of a later
`setState` call comes after the immediate invocation in the log. -/
theorem sideEffect_triggerNow_immediate {T : Type} [DecidableEq T] :
    (∀ (s : VexdState T) (f : Nat),
        (s.sideEffect f true).events = s.events ++ [(f, s.value)]
        ∧ (s.sideEffect f true).subscribers = s.subscribers ++ [f]
        ∧ (s.sideEffect f true).value = s.value
        ∧ (s.sideEffect f true).passes = s.passes)
    ∧ (∀ (s : VexdState T) (f : Nat),
        (s.sideEffect f false).events = s.events
        ∧ (s.sideEffect f false).subscribers = s.subscribers ++ [f]
        ∧ (s.sideEffect f false).value = s.value)
    ∧ (∀ (s : VexdState T) (f : Nat) (n : CallbackOrValue T),
        ∃ tail, ((s.sideEffect f true).setState n).events
          = (s.events ++ [(f, s.value)]) ++ tail) := by
  refine ⟨fun s f => ⟨rfl, rfl, rfl, rfl⟩, fun s f => ⟨rfl, rfl, rfl⟩,
    fun s f n => ?_⟩
  dsimp [VexdState.sideEffect, VexdState.setState]
  split
  · exact ⟨_, rfl⟩
  · exact ⟨[], by simp⟩

/-- Claim C9: `clear` empties the subscriber list and leaves the stored
value (and the invocation log) unchanged, and a `setState` issued after
`clear` and before any new subscription invokes no subscriber callback
(the event log does not grow). -/
theorem clear_frame {T : Type} [DecidableEq T] :
    (∀ s : VexdState T,
        s.clear.subscribers = []
        ∧ s.clear.value = s.value
        ∧ s.clear.events = s.events)
    ∧ (∀ (s : VexdState T) (n : CallbackOrValue T),
        (s.clear.setState n).events = s.clear.events) := by
  refine ⟨fun s => ⟨rfl, rfl, rfl⟩, fun s n => ?_⟩
  dsimp [VexdState.clear, VexdState.setState]
  split <;> simp

/-- Claim C10: on a function-typed state, every `setState` argument is
itself a function value, `typeof` classifies it as a function, so the
updater branch always runs and the stored value is `f(previousValue)`;
the literal-replacement branch runs only for non-function arguments, so no
call can store a function value through it. -/
theorem setState_function_updater_branch :
    (∀ (prev : JSVal) (c : FnCode),
        setStateValue prev (JSVal.fn c) = (evalFn c prev, true))
    ∧ (∀ prev v : JSVal, (setStateValue prev v).2 = false →
        v.isFunction = false ∧ (setStateValue prev v).1 = v)
    ∧ (∀ prev v : JSVal, v.isFunction = true →
        (setStateValue prev v).2 = true) := by
  refine ⟨fun prev c => rfl, fun prev v h => ?_, fun prev v h => ?_⟩
  · cases v <;> simp_all [setStateValue, JSVal.isFunction]
  · cases v <;> simp_all [setStateValue, JSVal.isFunction]

/-- Claim C10 witness: both hypotheses of the theorem discharged at
concrete runtime values. -/
theorem setState_function_updater_branch_witness :
    ((setStateValue (JSVal.num 0) (JSVal.num 1)).1 = JSVal.num 1)
    ∧ ((setStateValue (JSVal.num 0) (JSVal.fn FnCode.idC)).2 = true) :=
  ⟨(setState_function_updater_branch.2.1 (JSVal.num 0) (JSVal.num 1) rfl).2,
   setState_function_updater_branch.2.2 (JSVal.num 0) (JSVal.fn FnCode.idC) rfl⟩

/-- Claim C3: a notification pass runs exactly when the computed next value
differs from the previous one — the pass count goes up by one and the event
log is extended by one invocation per currently registered subscriber, in
registration order, with the new value, if and only if the values differ;
hence over a sequence of `set` calls whose value chain (initial value
included) has no equal consecutive values, the number of passes equals the
number of calls; and in the scenario `set(1); set(1); set(2)` from initial
value `0` with one recording subscriber, the recorded values are `[1, 2]`. -/
theorem setState_notifies_iff_changed {T : Type} [DecidableEq T] :
    (∀ (s : VexdState T) (n : CallbackOrValue T),
        (s.setState n).passes
          = s.passes + (if nextVal s n ≠ s.value then 1 else 0)
        ∧ (s.setState n).events
          = s.events ++ (if nextVal s n ≠ s.value then
              s.subscribers.map (fun f => (f, nextVal s n)) else []))
    ∧ (∀ (s : VexdState T) (vs : List T),
        List.Chain' (fun a b => a ≠ b) (s.value :: vs) →
        (runSets s vs).passes = s.passes + vs.length)
    ∧ ((runSets (VexdState.mk (0 : Int) [0] [] 0) [1, 1, 2]).events.map Prod.snd
        = [1, 2]) := by
  refine ⟨fun s n => ?_, fun s vs h => runSets_passes_of_chain vs s h, by decide⟩
  dsimp [VexdState.setState]
  split
  · exact ⟨rfl, rfl⟩
  · exact ⟨by simp, by simp⟩

/-- Claim C3 witness: the chain hypothesis discharged on the concrete
sequence 1, 2, 3 from initial value 0. -/
theorem setState_notifies_iff_changed_witness :
    (runSets (VexdState.mk (0 : Int) [0] [] 0) [1, 2, 3]).passes = 0 + 3 :=
  setState_notifies_iff_changed.2.1 (VexdState.mk (0 : Int) [0] [] 0)
    [1, 2, 3] (by norm_num [List.chain'_cons])

/-- Claim C4: on a boxed list whose stored reference is live, `add`,
`remove` and `map` each store a fresh array reference distinct from the
previous one, so the inherited reference-inequality test succeeds and each
call triggers exactly one notification pass — whatever the element contents
are (`map` with the identity still notifies). -/
theorem list_mutators_always_notify {T : Type} :
    ∀ s : VexdStateList T, s.cur < s.heap.length →
      (∀ x : T, (s.add x).cur ≠ s.cur ∧ (s.add x).passes = s.passes + 1)
      ∧ (∀ p : T → Bool,
          (s.remove p).cur ≠ s.cur ∧ (s.remove p).passes = s.passes + 1)
      ∧ (∀ g : T → T,
          (s.map g).cur ≠ s.cur ∧ (s.map g).passes = s.passes + 1) :=
  fun s h =>
    ⟨fun x => ⟨(setStateFn_spec s (fun old => old ++ [x]) h).2.1,
        (setStateFn_spec s (fun old => old ++ [x]) h).2.2.1⟩,
     fun p => ⟨(setStateFn_spec s (fun old =>
          old.filter (fun item => !(p item))) h).2.1,
        (setStateFn_spec s (fun old =>
          old.filter (fun item => !(p item))) h).2.2.1⟩,
     fun g => ⟨(setStateFn_spec s (fun old => old.map g) h).2.1,
        (setStateFn_spec s (fun old => old.map g) h).2.2.1⟩⟩

/-- Claim C4 witness: the liveness hypothesis discharged on a concrete
boxed list; a `map` with the identity function still notifies. -/
theorem list_mutators_always_notify_witness :
    ((VexdStateList.mk ([[]] : List (List Int)) 0 [] [] 0).add 5).passes = 0 + 1
    ∧ ((VexdStateList.mk ([[]] : List (List Int)) 0 [] [] 0).map
        (fun x => x)).passes = 0 + 1 :=
  ⟨((list_mutators_always_notify
      (VexdStateList.mk ([[]] : List (List Int)) 0 [] [] 0) (by decide)).1 5).2,
   ((list_mutators_always_notify
      (VexdStateList.mk ([[]] : List (List Int)) 0 [] [] 0)
      (by decide)).2.2 (fun x => x)).2⟩

/-- Claim C6: after `remove(pred)` the stored array holds exactly the
elements of the previous array for which the predicate is false, in their
original relative order (it is the filtered previous array, a sublist of
it, and membership is previous membership plus predicate-false); in the
concrete scenario, removing `x === 2` from `[1, 2, 3]` stores `[1, 3]`. -/
theorem remove_keeps_unmatched {T : Type} :
    (∀ (s : VexdStateList T) (p : T → Bool), s.cur < s.heap.length →
        storedList (s.remove p) = (storedList s).filter (fun i => !(p i))
        ∧ List.Sublist (storedList (s.remove p)) (storedList s)
        ∧ ∀ a, a ∈ storedList (s.remove p) ↔ a ∈ storedList s ∧ p a = false)
    ∧ storedList ((VexdStateList.mk [[1, 2, 3]] 0 [] [] 0 : VexdStateList Int).remove
        (fun x => x == 2)) = [1, 3] := by
  constructor
  · intro s p h
    have h1 : storedList (s.remove p) = (storedList s).filter (fun i => !(p i)) :=
      (setStateFn_spec s (fun old => old.filter (fun i => !(p i))) h).1
    refine ⟨h1, ?_, ?_⟩
    · rw [h1]
      exact List.filter_sublist _
    · intro a
      rw [h1]
      simp [List.mem_filter]
  · decide

/-- Claim C6 witness: the liveness hypothesis discharged at a concrete
boxed list and predicate. -/
theorem remove_keeps_unmatched_witness :
    storedList ((VexdStateList.mk [[1, 2, 3]] 0 [] [] 0 : VexdStateList Int).remove
        (fun x => x == 1))
      = List.filter (fun i => !(i == 1))
          (storedList (VexdStateList.mk [[1, 2, 3]] 0 [] [] 0 : VexdStateList Int)) :=
  (remove_keeps_unmatched.1 (VexdStateList.mk [[1, 2, 3]] 0 [] [] 0)
    (fun x => x == 1) (by decide)).1

/-- Claim C7: on a boxed list whose stored reference is live, `add(x)`
stores a new array equal to the previous one with `x` appended, at a fresh
reference distinct from the previous one, and the array held at the
previous reference is left unmodified. -/
theorem add_appends_preserves_old {T : Type} :
    ∀ (s : VexdStateList T) (x : T), s.cur < s.heap.length →
      storedList (s.add x) = storedList s ++ [x]
      ∧ (s.add x).heap.getD s.cur [] = s.heap.getD s.cur []
      ∧ (s.add x).cur ≠ s.cur :=
  fun s x h =>
    ⟨(setStateFn_spec s (fun old => old ++ [x]) h).1,
     (setStateFn_spec s (fun old => old ++ [x]) h).2.2.2.1,
     (setStateFn_spec s (fun old => old ++ [x]) h).2.1⟩

/-- Claim C7 witness: the liveness hypothesis discharged on a concrete
boxed list holding `[1, 2]`. -/
theorem add_appends_preserves_old_witness :
    storedList ((VexdStateList.mk [[1, 2]] 0 [] [] 0 : VexdStateList Int).add 9)
      = storedList (VexdStateList.mk [[1, 2]] 0 [] [] 0 : VexdStateList Int) ++ [9]
    ∧ ((VexdStateList.mk [[1, 2]] 0 [] [] 0 : VexdStateList Int).add 9).heap.getD 0 []
      = (VexdStateList.mk [[1, 2]] 0 [] [] 0 : VexdStateList Int).heap.getD 0 [] :=
  ⟨(add_appends_preserves_old (VexdStateList.mk [[1, 2]] 0 [] [] 0) 9 (by decide)).1,
   (add_appends_preserves_old (VexdStateList.mk [[1, 2]] 0 [] [] 0) 9 (by decide)).2.1⟩

/-- Claim C8: from the idle state, every sequence of `start`/`stop`/`reset`
calls leaves at most one live platform timer; `stop` in the idle state is a
no-op; `reset` always ends running, with exactly one live timer when the
handle invariant holds; two successive `start` calls leave exactly one live
timer; and `start` while running cancels the previously scheduled platform
timer. -/
theorem timer_at_most_one_active :
    (∀ ops : List TimerOp, (runTimer ops).active.length ≤ 1)
    ∧ (∀ s : TimerState, s.intervalId = none → s.stop = s)
    ∧ (∀ s : TimerState, s.reset.intervalId.isSome = true)
    ∧ (∀ s : TimerState, TimerInv s →
        s.reset.active.length = 1
        ∧ s.start.start.active.length = 1
        ∧ ∀ i : Nat, s.intervalId = some i → i ∉ s.start.active) := by
  refine ⟨fun ops => ?_, fun s h => ?_, fun s => ?_, fun s h => ⟨?_, ?_, ?_⟩⟩
  · rw [(runTimer_inv ops).1]
    cases (runTimer ops).intervalId <;> simp
  · obtain ⟨oid, nid, act⟩ := s
    have ho : oid = none := h
    subst ho
    rfl
  · obtain ⟨oid, nid, act⟩ := s
    cases oid <;> rfl
  · exact inv_active_len (timer_start_inv (timer_stop_inv h)) (start_isSome s.stop)
  · exact inv_active_len (timer_start_inv (timer_start_inv h)) (start_isSome s.start)
  · intro i hi
    exact start_cancels_previous h hi

/-- Claim C8 witness: hypotheses discharged concretely — stopping the idle
initial handle, double-starting from idle, and starting over a running
handle holding platform timer 1. -/
theorem timer_at_most_one_active_witness :
    initTimer.stop = initTimer
    ∧ initTimer.start.start.active.length = 1
    ∧ 1 ∉ (TimerState.mk (some 1) 2 [1]).start.active :=
  ⟨timer_at_most_one_active.2.1 initTimer rfl,
   (timer_at_most_one_active.2.2.2 initTimer initTimer_inv).2.1,
   (timer_at_most_one_active.2.2.2 (TimerState.mk (some 1) 2 [1])
      (timerInv_mk rfl (by omega) (by intro i hi; simp at hi; omega))).2.2 1 rfl⟩

end VexJS
